import Mathlib

/-!
Shallow embedding of the yamdb_api backend: the request handlers of
src/api_yamdb/api/views.py over the data model of
src/api_yamdb/reviews/models.py.  Stored state is passed explicitly
(a list of user records, a list of review records); each handler is a
pure function from state and request data to a response and the new
state.  Parts of the repository that the views import but that are not
present in the sources (the serializers in api/serializers.py, the
confirmation-mail helper in api/utils.py, and the fields of the Review
model, whose class in reviews/models.py is an empty stub) are modelled
from the spec, and each such definition says so in its doc comment.
-/

/-- A stored user record.  Fields from reviews/models.py class User
(AbstractUser plus email, bio, role); the confirmation_code attribute
is the one read and written by the views (views.py lines 160, 209). -/
structure UserRec where
  username : String
  email : String
  bio : String
  role : String
  confirmationCode : String
deriving Repr, DecidableEq

/-- User.objects.filter(username=...).first() / get_object_or_404 lookup:
the first stored user with the given username, if any. -/
def findUser (users : List UserRec) (username : String) : Option UserRec :=
  users.find? (fun u => u.username == username)

/-- AccessToken.for_user(user): an opaque signed bearer token carrying the
identity of the user (rest_framework_simplejwt collaborator). -/
def AccessToken.forUser (u : UserRec) : String :=
  "token-for:" ++ u.username

/-- Response of the token endpoint: 200 with a token, 400, or 404. -/
inductive TokenResp where
  | ok (token : String)
  | badRequest
  | notFound
deriving Repr, DecidableEq

/-- TokenObtainWithConfirmationView.create (views.py lines 147-166):
reject the reserved username "me" with 400, look the user up (404 when
absent), compare the submitted code with the stored one, and issue a
token exactly on a match.  The handler never writes to the store. -/
def tokenCreate (users : List UserRec) (username confirmationCode : String) :
    TokenResp :=
  if username = "me" then TokenResp.badRequest
  else
    match findUser users username with
    | none => TokenResp.notFound
    | some user =>
        if confirmationCode = user.confirmationCode then
          TokenResp.ok (AccessToken.forUser user)
        else TokenResp.badRequest

/-- Whether a token-endpoint response carries a token. -/
def isTokenOk : TokenResp → Bool
  | TokenResp.ok _ => true
  | _ => false

/-- Number of tokens issued over a sequence of attempts with the given
codes (the handler is read-only, so attempts are independent). -/
def tokensIssued (users : List UserRec) (username : String)
    (codes : List String) : Nat :=
  (codes.map (fun c => tokenCreate users username c)).countP isTokenOk

/-- Response status of the signup endpoint (views.py returns only
200 or 400 from SignupView.post). -/
inductive SignupResp where
  | ok200
  | badRequest400
deriving Repr, DecidableEq

/-- Result of a signup request: the response and the user store after. -/
structure SignupResult where
  resp : SignupResp
  users : List UserRec
deriving Repr, DecidableEq

/-- Modelled from the spec: SignUpSerializer validation for a fresh
username (serializers.py is not among the sources).  Input is
{username, email}; both fields must be present (nonempty here) and the
email must be unique among stored users (data model: email (unique)). -/
def signUpSerializerValid (users : List UserRec) (username email : String) :
    Bool :=
  username ≠ "" && email ≠ "" && users.all (fun u => u.email ≠ email)

/-- SignupView.post (views.py lines 172-215): reject username "me" with
400; if a user with this username exists, 400 on an email mismatch and
200 (with no write) on a match; otherwise validate, create the user,
generate a confirmation code (send_confirmation_email, modelled by the
freshCode argument) and persist it on the record. -/
def signupPost (users : List UserRec) (username email freshCode : String) :
    SignupResult :=
  if username = "me" then ⟨SignupResp.badRequest400, users⟩
  else
    match findUser users username with
    | some existingUser =>
        if existingUser.email ≠ email then ⟨SignupResp.badRequest400, users⟩
        else ⟨SignupResp.ok200, users⟩
    | none =>
        if signUpSerializerValid users username email then
          ⟨SignupResp.ok200,
            users ++ [{ username := username, email := email, bio := "",
                        role := "user", confirmationCode := freshCode }]⟩
        else ⟨SignupResp.badRequest400, users⟩

/-- A demo store for concrete evaluations. -/
def demoUser : UserRec :=
  { username := "bob", email := "bob@x.com", bio := "", role := "user",
    confirmationCode := "c123" }

/-- The demo store holding just the demo user. -/
def demoUsers : List UserRec := [demoUser]

/-- C1: token exchange issues a bearer token iff the submitted code
equals the stored code of the username: a match yields 200 with a
token, a mismatch yields 400 with no token (over any sequence of
wrong-code attempts, zero tokens are issued), and a nonexistent
username yields 404. -/
theorem token_exchange_correct (users : List UserRec) (username : String)
    (hne : username ≠ "me") :
    (findUser users username = none →
      ∀ code, tokenCreate users username code = TokenResp.notFound) ∧
    (∀ u, findUser users username = some u →
      (∀ code, (∃ t, tokenCreate users username code = TokenResp.ok t) ↔
        code = u.confirmationCode) ∧
      (∀ code, code = u.confirmationCode →
        tokenCreate users username code = TokenResp.ok (AccessToken.forUser u)) ∧
      (∀ code, code ≠ u.confirmationCode →
        tokenCreate users username code = TokenResp.badRequest) ∧
      (∀ codes : List String, (∀ c ∈ codes, c ≠ u.confirmationCode) →
        tokensIssued users username codes = 0)) := by
  refine ⟨fun hnone code => ?_, fun u hu => ⟨fun code => ⟨?_, ?_⟩, ?_, ?_, ?_⟩⟩
  · simp [tokenCreate, hne, hnone]
  · rintro ⟨t, ht⟩
    by_contra hcode
    simp [tokenCreate, hne, hu, hcode] at ht
  · rintro rfl
    exact ⟨AccessToken.forUser u, by simp [tokenCreate, hne, hu]⟩
  · rintro code rfl
    simp [tokenCreate, hne, hu]
  · intro code hcode
    simp [tokenCreate, hne, hu, hcode]
  · intro codes hcodes
    simp only [tokensIssued, List.countP_eq_zero, List.mem_map]
    rintro r ⟨c, hc, rfl⟩
    simp [tokenCreate, hne, hu, hcodes c hc, isTokenOk]

/-- Witness for C1 on the demo store: the right code yields a token, a
wrong code yields 400, an unknown username yields 404, and a run of
three wrong codes issues zero tokens. -/
theorem token_exchange_correct_witness :
    tokenCreate demoUsers "bob" "c123" = TokenResp.ok (AccessToken.forUser demoUser) ∧
    tokenCreate demoUsers "bob" "nope" = TokenResp.badRequest ∧
    tokensIssued demoUsers "bob" ["a", "b", "a"] = 0 ∧
    tokenCreate demoUsers "alice" "c123" = TokenResp.notFound := by
  have h := token_exchange_correct demoUsers "bob" (by decide)
  have hb := h.2 demoUser (by decide)
  have h404 := token_exchange_correct demoUsers "alice" (by decide)
  exact ⟨hb.2.1 "c123" rfl, hb.2.2.1 "nope" (by decide),
    hb.2.2.2 ["a", "b", "a"] (by decide), (h404.1 (by decide)) "c123"⟩

/-- C2: a signup whose username already belongs to a stored user returns
200 and leaves the store exactly unchanged when the submitted email
equals the stored one, and returns 400 with the store unchanged when
the email differs. -/
theorem signup_existing_user (users : List UserRec)
    (username email freshCode : String) (ex : UserRec)
    (hne : username ≠ "me") (hfind : findUser users username = some ex) :
    (email = ex.email →
      signupPost users username email freshCode = ⟨SignupResp.ok200, users⟩) ∧
    (email ≠ ex.email →
      signupPost users username email freshCode =
        ⟨SignupResp.badRequest400, users⟩) := by
  constructor
  · rintro rfl
    simp [signupPost, hne, hfind]
  · intro hnee
    have hnee2 : ¬ ex.email = email := fun h => hnee h.symm
    simp [signupPost, hne, hfind, hnee2]

/-- Witness for C2 on the demo store: re-signup with the stored email
returns 200 and changes nothing; a different email returns 400 and
changes nothing. -/
theorem signup_existing_user_witness :
    signupPost demoUsers "bob" "bob@x.com" "newc" =
      ⟨SignupResp.ok200, demoUsers⟩ ∧
    signupPost demoUsers "bob" "evil@x.com" "newc" =
      ⟨SignupResp.badRequest400, demoUsers⟩ := by
  have h := signup_existing_user demoUsers "bob" "bob@x.com" "newc" demoUser
    (by decide) (by decide)
  have h2 := signup_existing_user demoUsers "bob" "evil@x.com" "newc" demoUser
    (by decide) (by decide)
  exact ⟨h.1 rfl, h2.2 (by decide)⟩

/-- C4: with username "me", signup answers 400 without touching the
store, and token exchange answers 400 issuing no token. -/
theorem me_reserved_rejected (users : List UserRec)
    (email freshCode code : String) :
    signupPost users "me" email freshCode =
      ⟨SignupResp.badRequest400, users⟩ ∧
    tokenCreate users "me" code = TokenResp.badRequest ∧
    isTokenOk (tokenCreate users "me" code) = false := by
  refine ⟨by simp [signupPost], by simp [tokenCreate], by simp [tokenCreate, isTokenOk]⟩

/-- C8 counterexample: a signup attempt whose username and email match
the stored demo user leaves the store, and in particular the stored
confirmation code, exactly as it was: the code is not regenerated (the
handler returns 200 before any write, views.py lines 197-200), so the
stored code after the attempt equals the fixed prior code "c123"
rather than differing from it. -/
theorem signup_code_regenerated_counterexample :
    findUser demoUsers "bob" = some demoUser ∧
    demoUser.email = "bob@x.com" ∧
    demoUser.confirmationCode = "c123" ∧
    (signupPost demoUsers "bob" "bob@x.com" "freshcode").users = demoUsers ∧
    (findUser (signupPost demoUsers "bob" "bob@x.com" "freshcode").users
        "bob").map (fun u => u.confirmationCode) = some "c123" := by
  refine ⟨rfl, rfl, rfl, ?_, ?_⟩ <;> decide

/-- C8 amended: a signup attempt whose username matches an existing user
with the same email returns without writing, leaving the stored
confirmation code unchanged; a fresh confirmation code is generated and
persisted only on the branch that creates a new user, where the stored
record carries exactly the freshly generated code. -/
theorem signup_code_persistence (users : List UserRec)
    (username email freshCode : String) (hne : username ≠ "me") :
    (∀ ex, findUser users username = some ex → ex.email = email →
      (signupPost users username email freshCode).users = users) ∧
    (findUser users username = none →
      signUpSerializerValid users username email = true →
      findUser (signupPost users username email freshCode).users username =
        some { username := username, email := email, bio := "",
               role := "user", confirmationCode := freshCode }) := by
  constructor
  · intro ex hex hmail
    simp [signupPost, hne, hex, hmail]
  · intro hnone hvalid
    simp only [signupPost, if_neg hne, hnone, hvalid, if_pos]
    simp only [findUser, List.find?_append]
    simp only [findUser] at hnone
    simp [hnone]

/-- Witness for C8 amended: re-signup of the demo user keeps the stored
code, and signup of a new username stores the freshly generated code. -/
theorem signup_code_persistence_witness :
    (signupPost demoUsers "bob" "bob@x.com" "n1").users = demoUsers ∧
    findUser (signupPost demoUsers "alice" "alice@x.com" "n2").users "alice" =
      some { username := "alice", email := "alice@x.com", bio := "",
             role := "user", confirmationCode := "n2" } := by
  have h1 := (signup_code_persistence demoUsers "bob" "bob@x.com" "n1"
    (by decide)).1 demoUser (by decide) (by decide)
  have h2 := (signup_code_persistence demoUsers "alice" "alice@x.com" "n2"
    (by decide)).2 (by decide) (by decide)
  exact ⟨h1, h2⟩

/-- Modelled from the spec: a stored review record.  The Review class in
reviews/models.py is an empty stub, so the fields follow the spec data
model: {id, title_id, author_id, text, score}. -/
structure ReviewRec where
  id : Nat
  titleId : Nat
  authorId : Nat
  text : String
  score : Int
deriving Repr, DecidableEq

/-- Response of a review-creation request: created, or the client error
that Django turns a SuspiciousOperation (and a validation failure)
into. -/
inductive ReviewCreateResp where
  | created
  | clientError
deriving Repr, DecidableEq

/-- Result of a review-creation request: response and review store after. -/
structure ReviewCreateResult where
  resp : ReviewCreateResp
  reviews : List ReviewRec
deriving Repr, DecidableEq

/-- Modelled from the spec: ReviewSerializer score validation
(serializers.py is not among the sources; the spec bounds the score,
e.g. 1-10). -/
def reviewSerializerValid (score : Int) : Bool :=
  1 ≤ score && score ≤ 10

/-- ReviewViewSet create/perform_create (views.py 241-254): the mixin
create validates the serializer (400 on failure), then perform_create
raises SuspiciousOperation -- surfaced as a client error -- when the
requesting user already has a review for this title, before any
persistence; otherwise the review is saved with the author and title
attached. -/
def reviewCreate (reviews : List ReviewRec) (titleId authorId newId : Nat)
    (text : String) (score : Int) : ReviewCreateResult :=
  if ¬ reviewSerializerValid score then ⟨ReviewCreateResp.clientError, reviews⟩
  else if reviews.any (fun r => r.titleId == titleId && r.authorId == authorId)
  then ⟨ReviewCreateResp.clientError, reviews⟩
  else ⟨ReviewCreateResp.created,
    reviews ++ [{ id := newId, titleId := titleId, authorId := authorId,
                  text := text, score := score }]⟩

/-- The invariant: no two stored reviews share their (title, author)
pair. -/
def uniquePerTitleAuthor (reviews : List ReviewRec) : Prop :=
  List.Pairwise
    (fun a b => ¬ (a.titleId = b.titleId ∧ a.authorId = b.authorId)) reviews

/-- C3: at most one review per (title, author) pair is preserved by every
review creation: a second review by the same user on the same title is
rejected with a client error before persistence (store unchanged), a
creation by a user with no review on that title succeeds and appends
the review, and the uniqueness invariant is preserved. -/
theorem review_unique_per_title_author (reviews : List ReviewRec)
    (titleId authorId newId : Nat) (text : String) (score : Int)
    (hv : reviewSerializerValid score = true) :
    ((∃ r ∈ reviews, r.titleId = titleId ∧ r.authorId = authorId) →
      reviewCreate reviews titleId authorId newId text score =
        ⟨ReviewCreateResp.clientError, reviews⟩) ∧
    ((∀ r ∈ reviews, ¬ (r.titleId = titleId ∧ r.authorId = authorId)) →
      reviewCreate reviews titleId authorId newId text score =
        ⟨ReviewCreateResp.created,
          reviews ++ [{ id := newId, titleId := titleId, authorId := authorId,
                        text := text, score := score }]⟩) ∧
    (uniquePerTitleAuthor reviews →
      uniquePerTitleAuthor
        (reviewCreate reviews titleId authorId newId text score).reviews) := by
  have hany : (reviews.any fun r =>
      r.titleId == titleId && r.authorId == authorId) = true ↔
      ∃ r ∈ reviews, r.titleId = titleId ∧ r.authorId = authorId := by
    simp [List.any_eq_true]
  refine ⟨?_, ?_, ?_⟩
  · intro hex
    simp [reviewCreate, hv, hany.mpr hex]
  · intro hnone
    have hfalse : (reviews.any fun r =>
        r.titleId == titleId && r.authorId == authorId) = false := by
      simp only [List.any_eq_false]
      intro r hr
      simpa using hnone r hr
    simp [reviewCreate, hv, hfalse]
  · intro hinv
    by_cases hex : ∃ r ∈ reviews, r.titleId = titleId ∧ r.authorId = authorId
    · simpa [reviewCreate, hv, hany.mpr hex] using hinv
    · have hall : ∀ r ∈ reviews, ¬ (r.titleId = titleId ∧ r.authorId = authorId) := by
        push_neg at hex
        exact fun r hr h => hex r hr h.1 h.2
      have hfalse : (reviews.any fun r =>
          r.titleId == titleId && r.authorId == authorId) = false := by
        simp only [List.any_eq_false]
        intro r hr
        simpa using hall r hr
      have hres : (reviewCreate reviews titleId authorId newId text score).reviews =
          reviews ++ [{ id := newId, titleId := titleId, authorId := authorId,
                        text := text, score := score }] := by
        simp [reviewCreate, hv, hfalse]
      unfold uniquePerTitleAuthor at hinv ⊢
      rw [hres, List.pairwise_append]
      refine ⟨hinv, List.pairwise_singleton _ _, ?_⟩
      intro a ha b hb
      rw [List.mem_singleton] at hb
      subst hb
      exact hall a ha

/-- Witness for C3: author 1 reviews title 10 on an empty store
(created); a second attempt by author 1 on title 10 is rejected with
the store unchanged; author 2 reviewing title 10 succeeds; the
uniqueness invariant holds afterwards. -/
theorem review_unique_per_title_author_witness :
    (reviewCreate [] 10 1 1 "good" 8).resp = ReviewCreateResp.created ∧
    reviewCreate [⟨1, 10, 1, "good", 8⟩] 10 1 2 "again" 9 =
      ⟨ReviewCreateResp.clientError, [⟨1, 10, 1, "good", 8⟩]⟩ ∧
    (reviewCreate [⟨1, 10, 1, "good", 8⟩] 10 2 2 "also" 7).resp =
      ReviewCreateResp.created ∧
    uniquePerTitleAuthor
      (reviewCreate [⟨1, 10, 1, "good", 8⟩] 10 2 2 "also" 7).reviews := by
  have h1 := review_unique_per_title_author [] 10 1 1 "good" 8 (by decide)
  have h2 := review_unique_per_title_author [⟨1, 10, 1, "good", 8⟩] 10 1 2
    "again" 9 (by decide)
  have h3 := review_unique_per_title_author [⟨1, 10, 1, "good", 8⟩] 10 2 2
    "also" 7 (by decide)
  refine ⟨by rw [h1.2.1 (by simp)], h2.1 ⟨⟨1, 10, 1, "good", 8⟩, by simp, rfl, rfl⟩,
    by rw [h3.2.1 (by simp)], h3.2.2 (List.pairwise_singleton _ _)⟩

/-- A stored title (reviews/models.py class Title): name, year, optional
description, optional category, genres. -/
structure TitleRec where
  id : Nat
  name : String
  year : Int
  description : Option String
  categoryId : Option Nat
  genreIds : List Nat
deriving Repr, DecidableEq

/-- The review rows of a title: the reviews__score join that the Avg
annotation aggregates over. -/
def titleReviews (reviews : List ReviewRec) (titleId : Nat) : List ReviewRec :=
  reviews.filter (fun r => r.titleId == titleId)

/-- The SQL Avg aggregate: NULL over no rows, otherwise the sum of the
values divided by their count, kept as an exact rational. -/
def sqlAvg (xs : List Int) : Option ℚ :=
  match xs with
  | [] => none
  | _ => some (((xs.foldl (fun a b => a + b) 0 : Int) : ℚ) / (xs.length : ℚ))

/-- A title as the title queryset carries it: the record together with
its annotated rating. -/
structure AnnotatedTitle where
  title : TitleRec
  rating : Option ℚ
deriving Repr, DecidableEq

/-- TitleViewSet.get_queryset (views.py 85-89):
Title.objects.annotate(rating=Avg("reviews__score")).order_by("-year"),
the queryset behind both list and retrieve responses. -/
def titleGetQueryset (titles : List TitleRec) (reviews : List ReviewRec) :
    List AnnotatedTitle :=
  (titles.map (fun t =>
    ⟨t, sqlAvg ((titleReviews reviews t.id).map (fun r => r.score))⟩)).mergeSort
    (fun a b => decide (b.title.year ≤ a.title.year))

/-- The arithmetic mean as the spec words it: the sum of the scores
divided by their number. -/
def arithmeticMean (xs : List Int) : ℚ :=
  (xs.map (Int.cast : Int → ℚ)).sum / (xs.length : ℚ)

/-- Over at least one row the Avg aggregate equals the arithmetic mean. -/
theorem sqlAvg_eq_arithmeticMean (xs : List Int) (hne : xs ≠ []) :
    sqlAvg xs = some (arithmeticMean xs) := by
  match xs, hne with
  | a :: l, _ =>
    show some _ = some _
    unfold arithmeticMean
    congr 1
    rw [← List.sum_eq_foldl, Int.cast_list_sum]

/-- Demo titles: one reviewed, one without reviews. -/
def demoTitle1 : TitleRec :=
  { id := 1, name := "Dune", year := 1965, description := none,
    categoryId := none, genreIds := [] }

/-- Second demo title. -/
def demoTitle2 : TitleRec :=
  { id := 2, name := "Tron", year := 1982, description := none,
    categoryId := none, genreIds := [] }

/-- The demo title store. -/
def demoTitles : List TitleRec := [demoTitle1, demoTitle2]

/-- The demo review store: one review, score 8, on title 2 by author 1. -/
def demoReviews : List ReviewRec := [⟨1, 2, 1, "good", 8⟩]

/-- C5: every entry of the title queryset behind list and retrieve
carries rating none when its title has zero reviews, and otherwise a
rating equal to the arithmetic mean of the title's review scores. -/
theorem title_rating_is_mean (titles : List TitleRec) (reviews : List ReviewRec) :
    ∀ a ∈ titleGetQueryset titles reviews,
      (titleReviews reviews a.title.id = [] → a.rating = none) ∧
      (titleReviews reviews a.title.id ≠ [] →
        a.rating = some (arithmeticMean
          ((titleReviews reviews a.title.id).map (fun r => r.score)))) := by
  intro a ha
  rw [titleGetQueryset, List.mem_mergeSort] at ha
  rcases List.mem_map.mp ha with ⟨t, ht, rfl⟩
  constructor
  · intro hempty
    show sqlAvg _ = none
    rw [show (titleReviews reviews t.id) = [] from hempty]
    rfl
  · intro hne
    show sqlAvg _ = some _
    apply sqlAvg_eq_arithmeticMean
    simpa using hne

/-- Witness for C5: in the demo store, title 2 (one review of score 8)
appears in the queryset with rating 8 = the mean of its scores, and
title 1 (no reviews) appears with rating none. -/
theorem title_rating_is_mean_witness :
    ((⟨demoTitle2, some 8⟩ : AnnotatedTitle) ∈
      titleGetQueryset demoTitles demoReviews) ∧
    (some 8 : Option ℚ) = some (arithmeticMean
      ((titleReviews demoReviews demoTitle2.id).map (fun r => r.score))) ∧
    ((⟨demoTitle1, none⟩ : AnnotatedTitle) ∈
      titleGetQueryset demoTitles demoReviews) ∧
    (⟨demoTitle1, none⟩ : AnnotatedTitle).rating = none := by
  have hmem2 : (⟨demoTitle2, some 8⟩ : AnnotatedTitle) ∈
      titleGetQueryset demoTitles demoReviews := by
    rw [titleGetQueryset, List.mem_mergeSort]
    refine List.mem_map.mpr ⟨demoTitle2, by decide, ?_⟩
    show AnnotatedTitle.mk _ _ = _
    congr 1
    have hlist : (titleReviews demoReviews demoTitle2.id).map
        (fun r => r.score) = [8] := by decide
    rw [hlist]
    norm_num [sqlAvg]
  have hmem1 : (⟨demoTitle1, none⟩ : AnnotatedTitle) ∈
      titleGetQueryset demoTitles demoReviews := by
    rw [titleGetQueryset, List.mem_mergeSort]
    exact List.mem_map.mpr ⟨demoTitle1, by decide, by decide⟩
  have h2 := (title_rating_is_mean demoTitles demoReviews ⟨demoTitle2, some 8⟩
    hmem2).2 (by decide)
  have h1 := (title_rating_is_mean demoTitles demoReviews ⟨demoTitle1, none⟩
    hmem1).1 (by decide)
  exact ⟨hmem2, h2, hmem1, h1⟩

/-- C9: the title list is ordered by year descending: every adjacent
pair of entries of the queryset has the first year ≥ the second. -/
theorem title_list_year_desc (titles : List TitleRec) (reviews : List ReviewRec) :
    List.Chain' (fun a b => b.title.year ≤ a.title.year)
      (titleGetQueryset titles reviews) := by
  have htrans : ∀ a b c : AnnotatedTitle,
      decide (b.title.year ≤ a.title.year) = true →
      decide (c.title.year ≤ b.title.year) = true →
      decide (c.title.year ≤ a.title.year) = true := by
    intro a b c hab hbc
    simp only [decide_eq_true_eq] at *
    exact le_trans hbc hab
  have htot : ∀ a b : AnnotatedTitle,
      (decide (b.title.year ≤ a.title.year) ||
        decide (a.title.year ≤ b.title.year)) = true := by
    intro a b
    simp only [Bool.or_eq_true, decide_eq_true_eq]
    omega
  have hp := List.sorted_mergeSort htrans htot
    ((titles.map (fun t =>
      (⟨t, sqlAvg ((titleReviews reviews t.id).map (fun r => r.score))⟩ :
        AnnotatedTitle))))
  refine List.Pairwise.chain' (List.Pairwise.imp ?_ hp)
  intro a b h
  simpa using h

/-- An HTTP verb. -/
inductive HttpMethod where
  | get | post | put | patch | delete | head | options | trace
deriving Repr, DecidableEq

/-- The verb as request.method exposes it (uppercase). -/
def HttpMethod.upper : HttpMethod → String
  | .get => "GET"
  | .post => "POST"
  | .put => "PUT"
  | .patch => "PATCH"
  | .delete => "DELETE"
  | .head => "HEAD"
  | .options => "OPTIONS"
  | .trace => "TRACE"

/-- The verb as http_method_names spells it (lowercase). -/
def HttpMethod.lower : HttpMethod → String
  | .get => "get"
  | .post => "post"
  | .put => "put"
  | .patch => "patch"
  | .delete => "delete"
  | .head => "head"
  | .options => "options"
  | .trace => "trace"

/-- The request body of a user edit: the optional writable fields of the
UserSerializer (absent fields are left untouched in a partial update). -/
structure UserPatchData where
  username : Option String
  email : Option String
  bio : Option String
  role : Option String
deriving Repr, DecidableEq

/-- Modelled from the spec: UserSerializer validation of a partial edit
(serializers.py is not among the sources).  Present fields must be
well-formed: nonempty username and email, role one of the role
enumeration user/moderator/admin of the data model. -/
def userSerializerValid (d : UserPatchData) : Bool :=
  (match d.username with
   | none => true
   | some u => u ≠ "") &&
  (match d.email with
   | none => true
   | some e => e ≠ "") &&
  (match d.role with
   | none => true
   | some r => r == "user" || r == "moderator" || r == "admin")

/-- serializer.save() of a partial update: each validated field present
in the data overwrites the instance's field. -/
def applyPatch (u : UserRec) (d : UserPatchData) : UserRec :=
  { u with
    username := d.username.getD u.username,
    email := d.email.getD u.email,
    bio := d.bio.getD u.bio,
    role := d.role.getD u.role }

/-- Result of a users/me request: response status and the caller's
record as stored afterwards. -/
structure MeResult where
  status : Nat
  user : UserRec
deriving Repr, DecidableEq

/-- UsersViewSet.get_update_me (views.py 118-134), bound to both GET and
PATCH on users/me: build the serializer over the caller's record and
request.data with partial=True; when valid, pop the role field from
validated_data only when the method is PATCH, save, and answer 200;
when invalid answer 400 without saving. -/
def getUpdateMe (method : HttpMethod) (user : UserRec) (data : UserPatchData) :
    MeResult :=
  if userSerializerValid data then
    let vdata := if method = HttpMethod.patch then { data with role := none }
      else data
    ⟨200, applyPatch user vdata⟩
  else ⟨400, user⟩

/-- C6: a PATCH to users/me whose valid body contains a role field
succeeds with 200, leaves the caller's stored role exactly as it was,
and applies the other submitted profile fields. -/
theorem me_patch_role_unchanged (user : UserRec) (data : UserPatchData)
    (hrole : data.role.isSome) (hv : userSerializerValid data = true) :
    (getUpdateMe HttpMethod.patch user data).status = 200 ∧
    (getUpdateMe HttpMethod.patch user data).user.role = user.role ∧
    (getUpdateMe HttpMethod.patch user data).user.username =
      data.username.getD user.username ∧
    (getUpdateMe HttpMethod.patch user data).user.email =
      data.email.getD user.email ∧
    (getUpdateMe HttpMethod.patch user data).user.bio =
      data.bio.getD user.bio := by
  simp [getUpdateMe, hv, applyPatch]

/-- Witness for C6: the demo user PATCHes their profile with a new
username, a new bio and role admin; the role stays user, the other
fields land. -/
theorem me_patch_role_unchanged_witness :
    (getUpdateMe HttpMethod.patch demoUser
      ⟨some "bobby", none, some "hi", some "admin"⟩).status = 200 ∧
    (getUpdateMe HttpMethod.patch demoUser
      ⟨some "bobby", none, some "hi", some "admin"⟩).user.role = "user" ∧
    (getUpdateMe HttpMethod.patch demoUser
      ⟨some "bobby", none, some "hi", some "admin"⟩).user.username = "bobby" ∧
    (getUpdateMe HttpMethod.patch demoUser
      ⟨some "bobby", none, some "hi", some "admin"⟩).user.bio = "hi" := by
  have h := me_patch_role_unchanged demoUser
    ⟨some "bobby", none, some "hi", some "admin"⟩ (by decide) (by decide)
  exact ⟨h.1, h.2.1, h.2.2.1, h.2.2.2.2⟩

/-- C10: the users/me handler validates and saves the body on GET as
well as on PATCH, and pops the role field only on PATCH; a GET whose
valid body carries writable fields persists them all, role included. -/
theorem me_get_saves_body (user : UserRec) (data : UserPatchData) (r : String)
    (hrole : data.role = some r) (hv : userSerializerValid data = true) :
    getUpdateMe HttpMethod.get user data = ⟨200, applyPatch user data⟩ ∧
    (getUpdateMe HttpMethod.get user data).user.role = r := by
  constructor
  · simp [getUpdateMe, hv]
  · simp [getUpdateMe, hv, applyPatch, hrole]

/-- Witness for C10: a GET to users/me by the demo user with a body
carrying role admin persists role admin on the caller's record. -/
theorem me_get_saves_body_witness :
    (getUpdateMe HttpMethod.get demoUser
      ⟨none, none, none, some "admin"⟩).user.role = "admin" ∧
    getUpdateMe HttpMethod.get demoUser ⟨none, none, none, some "admin"⟩ =
      ⟨200, applyPatch demoUser ⟨none, none, none, some "admin"⟩⟩ := by
  have h := me_get_saves_body demoUser ⟨none, none, none, some "admin"⟩
    "admin" (by decide) (by decide)
  exact ⟨h.2, h.1⟩

/-- View.http_method_names as DRF defines it, inherited by
viewsets.ModelViewSet: the verbs a view will dispatch. -/
def modelViewSetHttpMethodNames : List String :=
  ["get", "post", "put", "patch", "delete", "head", "options", "trace"]

/-- TitleViewSet.http_method_names (views.py 81-83): every ModelViewSet
verb except put. -/
def titleHttpMethodNames : List String :=
  modelViewSetHttpMethodNames.filter (fun m => ¬ m ∈ ["put"])

/-- ReviewViewSet.http_method_names (views.py 226-228). -/
def reviewHttpMethodNames : List String :=
  modelViewSetHttpMethodNames.filter (fun m => ¬ m ∈ ["put"])

/-- CommentViewSet.http_method_names (views.py 265-267). -/
def commentHttpMethodNames : List String :=
  modelViewSetHttpMethodNames.filter (fun m => ¬ m ∈ ["put"])

/-- DRF dispatch: a verb outside the view's http_method_names never
reaches a handler and answers 405 Method Not Allowed with the state
untouched; an allowed verb runs the handler on the state. -/
def drfDispatch {σ : Type} (allowed : List String)
    (handler : HttpMethod → σ → Nat × σ) (method : HttpMethod) (st : σ) :
    Nat × σ :=
  if method.lower ∈ allowed then handler method st else (405, st)

/-- UsersViewSet.update (views.py 112-116): answer 405 to PUT without
calling the parent update; otherwise the parent update performs the
partial update of the target user. -/
def usersUpdate (st : List UserRec) (method : HttpMethod)
    (target : String) (data : UserPatchData) : Nat × List UserRec :=
  if method.upper = "PUT" then (405, st)
  else (200, st.map (fun u => if u.username == target then applyPatch u data
    else u))

/-- C7: a PUT to the users, titles, reviews or comments resource answers
405 Method Not Allowed and leaves the stored state unchanged: the users
view short-circuits PUT in update, and the other three exclude put from
their http_method_names so dispatch never runs a handler. -/
theorem put_returns_405 {σ : Type}
    (usersSt : List UserRec) (target : String) (data : UserPatchData)
    (titleHandler reviewHandler commentHandler : HttpMethod → σ → Nat × σ)
    (st : σ) :
    usersUpdate usersSt HttpMethod.put target data = (405, usersSt) ∧
    drfDispatch titleHttpMethodNames titleHandler HttpMethod.put st =
      (405, st) ∧
    drfDispatch reviewHttpMethodNames reviewHandler HttpMethod.put st =
      (405, st) ∧
    drfDispatch commentHttpMethodNames commentHandler HttpMethod.put st =
      (405, st) := by
  refine ⟨rfl, ?_, ?_, ?_⟩ <;>
    simp [drfDispatch, titleHttpMethodNames, reviewHttpMethodNames,
      commentHttpMethodNames, modelViewSetHttpMethodNames, HttpMethod.lower]
